import Mathlib

/-!
Shallow embedding of the order service of the Microservices-E-Commerce
repository (Go): the order data model (`models`), the in-memory order
repository (`repository.InMemoryOrderRepository`), the validation client
(`client.ServiceClient`), and the HTTP handlers `CreateOrder` and
`UpdateOrderStatus` (`handlers.OrderHandler`).

Modelling conventions:
- Go `float64` prices are embedded as `ℚ`: the price arithmetic in the
  source is plain multiply-and-add with no rounding-dependent branching.
- Go `int` quantities and stocks are embedded as `ℤ`.
- `time.Now()` and `uuid.New().String()` are non-deterministic inputs of
  the source; they become explicit parameters (`now : ℕ`, `uuid : String`).
- The HTTP network calls of `ServiceClient` are abstracted by a
  `ClientEnv`: two functions giving, for an id, either the decoded
  user/product or the error string the client would return.
- Handlers are modelled from the point after JSON decoding: a request
  value is given, and the handler returns the HTTP status code, the error
  message (if any), the response data (if any), and the new repository
  state.
-/

namespace ECom

/-- Go: `OrderStatus` is a string type; `OrderStatusPending = "pending"`. -/
def OrderStatusPending : String := "pending"

/-- Go: `OrderStatusConfirmed = "confirmed"`. -/
def OrderStatusConfirmed : String := "confirmed"

/-- Go: `OrderStatusShipped = "shipped"`. -/
def OrderStatusShipped : String := "shipped"

/-- Go: `OrderStatusDelivered = "delivered"`. -/
def OrderStatusDelivered : String := "delivered"

/-- Go: `OrderStatusCancelled = "cancelled"`. -/
def OrderStatusCancelled : String := "cancelled"

/-- Go struct `models.OrderItem`. -/
structure OrderItem where
  productID : String
  productName : String
  price : ℚ
  quantity : ℤ
  subtotal : ℚ
deriving DecidableEq, Repr

/-- Go struct `models.Order`. -/
structure Order where
  id : String
  userID : String
  items : List OrderItem
  totalPrice : ℚ
  status : String
  createdAt : ℕ
  updatedAt : ℕ
deriving DecidableEq, Repr

/-- Go struct `models.CreateOrderItem` (one line of the create request). -/
structure CreateOrderItem where
  productID : String
  quantity : ℤ
deriving DecidableEq, Repr

/-- Go struct `models.CreateOrderRequest`. -/
structure CreateOrderRequest where
  userID : String
  items : List CreateOrderItem
deriving DecidableEq, Repr

/-- Go struct `models.User` (as decoded from the user service). -/
structure User where
  id : String
  name : String
  email : String
deriving DecidableEq, Repr

/-- Go struct `models.Product` (as decoded from the product service). -/
structure Product where
  id : String
  name : String
  price : ℚ
  stock : ℤ
deriving DecidableEq, Repr

/-- Go: `models.NewOrderItem` - builds an item with `Subtotal = price * float64(quantity)`. -/
def NewOrderItem (productID productName : String) (price : ℚ) (quantity : ℤ) : OrderItem :=
  { productID := productID
    productName := productName
    price := price
    quantity := quantity
    subtotal := price * (quantity : ℚ) }

/-- Go: `models.NewOrder` - generated id and `time.Now()` are the explicit
`uuid` and `now` parameters; the total is the running sum of the items'
subtotals, status starts at pending, both timestamps are `now`. -/
def NewOrder (uuid : String) (now : ℕ) (userID : String) (items : List OrderItem) : Order :=
  { id := uuid
    userID := userID
    items := items
    totalPrice := items.foldl (fun acc it => acc + it.subtotal) 0
    status := OrderStatusPending
    createdAt := now
    updatedAt := now }

/-- Go: method `(*Order).UpdateStatus` - sets the status and refreshes
`UpdatedAt` to `time.Now()` (the explicit `now`). -/
def Order.UpdateStatus (o : Order) (status : String) (now : ℕ) : Order :=
  { o with status := status, updatedAt := now }

/-- Go: method `(*Order).CanBeCancelled`. -/
def Order.CanBeCancelled (o : Order) : Bool :=
  o.status == OrderStatusPending || o.status == OrderStatusConfirmed

/-- The in-memory order repository, `map[string]*Order`, embedded as an
association list keyed by `Order.id` (the map's keys are the ids). -/
abbrev Repo := List Order

/-- Go: `(*InMemoryOrderRepository).Create` - the map assignment
`r.orders[order.ID] = order`: replace the entry with this id if present,
otherwise add the order. Always succeeds (the Go method returns nil). -/
def Repo.create (r : Repo) (o : Order) : Repo :=
  match r with
  | [] => [o]
  | x :: rest => if x.id == o.id then o :: rest else x :: Repo.create rest o

/-- Go: `(*InMemoryOrderRepository).GetByID` - map lookup; `none` embeds the
"order not found" error. The Go method returns a copy of the struct; under
the value semantics of this embedding the returned value is the stored one. -/
def Repo.getByID (r : Repo) (id : String) : Option Order :=
  r.find? (fun o => o.id == id)

/-- Go: `(*InMemoryOrderRepository).Update` - fails with "order not found"
when the id is absent, else performs the same map assignment as `create`. -/
def Repo.update (r : Repo) (o : Order) : Except String Repo :=
  if r.any (fun x => x.id == o.id) then Except.ok (Repo.create r o)
  else Except.error "order not found"

/-- Go: `(*InMemoryOrderRepository).List` - all stored orders. -/
def Repo.list (r : Repo) : List Order := r

/-- Go: `(*InMemoryOrderRepository).GetByUserID` - linear scan by user id. -/
def Repo.getByUserID (r : Repo) (userID : String) : List Order :=
  r.filter (fun o => o.userID == userID)

/-- Abstraction of the two remote services behind `client.ServiceClient`:
`getUser` is the outcome of `GetUser` (decoded user, or the error string
built from a network/HTTP/envelope failure), `getProduct` likewise for
`GetProduct`. -/
structure ClientEnv where
  getUser : String → Except String User
  getProduct : String → Except String Product

/-- Go: `(*ServiceClient).CheckUserExists` - succeeds exactly when `GetUser`
does, discarding the user. -/
def CheckUserExists (env : ClientEnv) (userID : String) : Except String Unit :=
  match env.getUser userID with
  | Except.ok _ => Except.ok ()
  | Except.error e => Except.error e

/-- Go: `(*ServiceClient).ValidateOrderItems` - for each requested item in
request order: look the product up (wrapping a lookup error as
"invalid product {id}: {err}"); fail with the insufficient-stock message
when `product.Stock < item.Quantity`; otherwise snapshot the product into
an `OrderItem` via `NewOrderItem`. First failure aborts the whole call. -/
def ValidateOrderItems (env : ClientEnv) : List CreateOrderItem → Except String (List OrderItem)
  | [] => Except.ok []
  | item :: rest =>
    match env.getProduct item.productID with
    | Except.error e => Except.error ("invalid product " ++ item.productID ++ ": " ++ e)
    | Except.ok product =>
      if product.stock < item.quantity then
        Except.error ("insufficient stock for product " ++ product.name ++ ": available "
          ++ toString product.stock ++ ", requested " ++ toString item.quantity)
      else
        match ValidateOrderItems env rest with
        | Except.error e => Except.error e
        | Except.ok its =>
          Except.ok (NewOrderItem product.id product.name product.price item.quantity :: its)

/-- Outcome of a handler call: HTTP status code, the `error` field of the
response envelope (on failure), the order in the `data` field (on success),
and the repository state after the call. -/
structure HResult where
  status : ℕ
  error : Option String
  body : Option Order
  repo : Repo
deriving Repr

/-- Go: `(*OrderHandler).CreateOrder` (after JSON decoding): structural
check on user id and items, user existence check, item validation, then
`NewOrder` and `repo.Create` (which always succeeds in memory) with 201. -/
def CreateOrder (env : ClientEnv) (uuid : String) (now : ℕ) (repo : Repo)
    (req : CreateOrderRequest) : HResult :=
  if req.userID == "" || req.items.isEmpty then
    ⟨400, some "User ID and at least one item are required", none, repo⟩
  else
    match CheckUserExists env req.userID with
    | Except.error _ => ⟨400, some "Invalid user ID", none, repo⟩
    | Except.ok _ =>
      match ValidateOrderItems env req.items with
      | Except.error e => ⟨400, some e, none, repo⟩
      | Except.ok orderItems =>
        let order := NewOrder uuid now req.userID orderItems
        ⟨201, none, some order, Repo.create repo order⟩

/-- The allow-list the handler checks an update request's status against. -/
def validStatuses : List String :=
  [OrderStatusPending, OrderStatusConfirmed, OrderStatusShipped,
   OrderStatusDelivered, OrderStatusCancelled]

/-- Go: `(*OrderHandler).UpdateOrderStatus` (after JSON decoding): empty-id
check, membership of the requested status in the enumeration, repository
lookup, cancellation guard (`CanBeCancelled` only when the requested status
is cancelled), then `UpdateStatus` on the copy and `repo.Update`. -/
def UpdateOrderStatus (now : ℕ) (repo : Repo) (orderID : String) (reqStatus : String) : HResult :=
  if orderID == "" then
    ⟨400, some "Order ID is required", none, repo⟩
  else if !(validStatuses.contains reqStatus) then
    ⟨400, some "Invalid order status", none, repo⟩
  else
    match Repo.getByID repo orderID with
    | none => ⟨404, some "Order not found", none, repo⟩
    | some order =>
      if reqStatus == OrderStatusCancelled && !order.CanBeCancelled then
        ⟨400, some "Order cannot be cancelled in current status", none, repo⟩
      else
        let order2 := Order.UpdateStatus order reqStatus now
        match Repo.update repo order2 with
        | Except.error _ => ⟨500, some "Failed to update order status", none, repo⟩
        | Except.ok repo2 => ⟨200, none, some order2, repo2⟩

/-! Helper predicates and functions used to state the claims. They
characterise, per requested item, the outcome of one iteration of the
`ValidateOrderItems` loop. -/

/-- One requested item passes validation: its product resolves and the
stock covers the requested quantity (the loop's `product.Stock <
item.Quantity` test fails). -/
def itemOK (env : ClientEnv) (it : CreateOrderItem) : Bool :=
  match env.getProduct it.productID with
  | Except.ok p => decide (it.quantity ≤ p.stock)
  | Except.error _ => false

/-- The `OrderItem` snapshot the loop builds for a requested item whose
product resolves (the error branch is a dummy, never used under `itemOK`). -/
def snapshotItem (env : ClientEnv) (it : CreateOrderItem) : OrderItem :=
  match env.getProduct it.productID with
  | Except.ok p => NewOrderItem p.id p.name p.price it.quantity
  | Except.error _ => NewOrderItem it.productID "" 0 it.quantity

/-- The unit price a requested item resolves to (0 when the lookup fails). -/
def unitPrice (env : ClientEnv) (it : CreateOrderItem) : ℚ :=
  match env.getProduct it.productID with
  | Except.ok p => p.price
  | Except.error _ => 0

/-- The error message `ValidateOrderItems` produces for a failing item:
the wrapped lookup error, or the insufficient-stock message naming the
offending product. -/
def failMsg (env : ClientEnv) (it : CreateOrderItem) : String :=
  match env.getProduct it.productID with
  | Except.error e => "invalid product " ++ it.productID ++ ": " ++ e
  | Except.ok p => "insufficient stock for product " ++ p.name ++ ": available "
      ++ toString p.stock ++ ", requested " ++ toString it.quantity

lemma snapshotItem_subtotal (env : ClientEnv) (it : CreateOrderItem) :
    (snapshotItem env it).subtotal = unitPrice env it * (it.quantity : ℚ) := by
  unfold snapshotItem unitPrice
  cases env.getProduct it.productID <;> simp [NewOrderItem]

lemma foldl_add_subtotal (l : List OrderItem) (a : ℚ) :
    l.foldl (fun acc it => acc + it.subtotal) a = a + (l.map OrderItem.subtotal).sum := by
  induction l generalizing a with
  | nil => simp
  | cons x xs ih => simp [ih, add_assoc]

lemma validateOrderItems_ok_of_all (env : ClientEnv) (items : List CreateOrderItem)
    (h : ∀ it ∈ items, itemOK env it = true) :
    ValidateOrderItems env items = Except.ok (items.map (snapshotItem env)) := by
  induction items with
  | nil => rfl
  | cons x xs ih =>
    have hx : itemOK env x = true := h x (by simp)
    have hrest := ih (fun it hit => h it (by simp [hit]))
    rw [ValidateOrderItems]
    cases hp : env.getProduct x.productID with
    | error e => simp [itemOK, hp] at hx
    | ok p =>
      have hq : ¬ p.stock < x.quantity := by
        simp [itemOK, hp] at hx
        omega
      simp [hp, hq, hrest, snapshotItem]

lemma validateOrderItems_error_first (env : ClientEnv) :
    ∀ (items : List CreateOrderItem) (i : ℕ) (hi : i < items.length),
      (∀ j : ℕ, ∀ hj : j < i, itemOK env (items.get ⟨j, hj.trans hi⟩) = true) →
      itemOK env (items.get ⟨i, hi⟩) = false →
      ValidateOrderItems env items = Except.error (failMsg env (items.get ⟨i, hi⟩))
  | [], i, hi, _, _ => absurd hi (by simp)
  | x :: xs, 0, _, _, hbad => by
    rw [ValidateOrderItems]
    cases hp : env.getProduct x.productID with
    | error e => simp [List.get, failMsg, hp]
    | ok p =>
      have hlt : p.stock < x.quantity := by
        simp only [List.get] at hbad
        simp [itemOK, hp] at hbad
        omega
      simp [List.get, hp, hlt, failMsg]
  | x :: xs, (i+1), hi, hpre, hbad => by
    have hx : itemOK env x = true := hpre 0 (Nat.succ_pos i)
    have hi2 : i < xs.length := Nat.lt_of_succ_lt_succ hi
    have ih := validateOrderItems_error_first env xs i hi2
      (fun j hj => hpre (j + 1) (Nat.succ_lt_succ hj)) hbad
    rw [ValidateOrderItems]
    cases hp : env.getProduct x.productID with
    | error e => simp [itemOK, hp] at hx
    | ok p =>
      have hq : ¬ p.stock < x.quantity := by
        simp [itemOK, hp] at hx
        omega
      simp [hp, hq, ih]

lemma getByID_create (r : Repo) (o : Order) :
    Repo.getByID (Repo.create r o) o.id = some o := by
  induction r with
  | nil => simp [Repo.create, Repo.getByID, List.find?]
  | cons x rest ih =>
    cases hx : (x.id == o.id) with
    | true => simp [Repo.create, hx, Repo.getByID, List.find?]
    | false => simpa [Repo.create, hx, Repo.getByID, List.find?] using ih

lemma getByID_eq_some (r : Repo) (oid : String) (o : Order)
    (h : Repo.getByID r oid = some o) : o ∈ r ∧ o.id = oid := by
  refine ⟨List.mem_of_find?_eq_some h, ?_⟩
  have hp := List.find?_some h
  exact eq_of_beq hp

lemma update_mem_ok (r : Repo) (o o2 : Order) (hmem : o ∈ r) (hid : o.id = o2.id) :
    Repo.update r o2 = Except.ok (Repo.create r o2) := by
  have hany : r.any (fun x => x.id == o2.id) = true :=
    List.any_eq_true.mpr ⟨o, hmem, by simp [hid]⟩
  simp [Repo.update, hany]

lemma updateOrderStatus_success (now : ℕ) (repo : Repo) (oid st : String) (o : Order)
    (hid : (oid == "") = false)
    (hst : validStatuses.contains st = true)
    (hfind : Repo.getByID repo oid = some o)
    (hguard : (st == OrderStatusCancelled && !o.CanBeCancelled) = false) :
    UpdateOrderStatus now repo oid st =
      ⟨200, none, some (Order.UpdateStatus o st now),
        Repo.create repo (Order.UpdateStatus o st now)⟩ := by
  obtain ⟨hmem, hido⟩ := getByID_eq_some repo oid o hfind
  have hupd := update_mem_ok repo o (Order.UpdateStatus o st now) hmem
    (by simp [Order.UpdateStatus])
  have hstm : st ∈ validStatuses := by simpa using hst
  simp [UpdateOrderStatus, hid, hst, hstm, hfind, hguard, hupd]

lemma updateOrderStatus_cancel_blocked (now : ℕ) (repo : Repo) (oid : String) (o : Order)
    (hid : (oid == "") = false)
    (hfind : Repo.getByID repo oid = some o)
    (hcc : o.CanBeCancelled = false) :
    UpdateOrderStatus now repo oid OrderStatusCancelled =
      ⟨400, some "Order cannot be cancelled in current status", none, repo⟩ := by
  have hstm : OrderStatusCancelled ∈ validStatuses := by simp [validStatuses]
  simp [UpdateOrderStatus, hid, hstm, hfind, hcc]

/-! Concrete fixtures used by counterexamples and witnesses: a service
environment with one user `u1` and one product `p1` (price 10, stock 5),
and a few stored orders. -/

/-- Demo environment: user `u1` exists; product `p1` has price 10, stock 5;
everything else yields the client's non-200 error string. -/
def demoEnv : ClientEnv :=
  { getUser := fun uid =>
      if uid == "u1" then Except.ok ⟨"u1", "Alice", "alice@example.com"⟩
      else Except.error "user service returned status 404"
    getProduct := fun pid =>
      if pid == "p1" then Except.ok ⟨"p1", "Widget", 10, 5⟩
      else Except.error "product service returned status 404" }

/-- One concrete order line: one `p1` at price 10. -/
def demoItem : OrderItem :=
  { productID := "p1", productName := "Widget", price := 10, quantity := 1, subtotal := 10 }

/-- A stored order already in status cancelled. -/
def cancelledDemoOrder : Order :=
  { id := "o1", userID := "u1", items := [demoItem],
    totalPrice := 10, status := OrderStatusCancelled, createdAt := 0, updatedAt := 0 }

/-- A stored order already in status shipped. -/
def shippedDemoOrder : Order :=
  { id := "o1", userID := "u1", items := [demoItem],
    totalPrice := 10, status := OrderStatusShipped, createdAt := 0, updatedAt := 0 }

/-- A stored order in the initial status pending. -/
def pendingDemoOrder : Order :=
  { id := "o1", userID := "u1", items := [demoItem],
    totalPrice := 10, status := OrderStatusPending, createdAt := 0, updatedAt := 0 }

/-- Claim C1: for every create-order request whose user exists and whose
every item resolves to a product with sufficient stock (and which passes
the handler's structural check: non-empty user id, at least one item),
`CreateOrder` returns HTTP 201 with a persisted order whose `totalPrice`
is exactly the sum over all items of `unitPrice_i * quantity_i` and whose
status is pending. -/
theorem CreateOrder_happy_path (env : ClientEnv) (uuid : String) (now : ℕ) (repo : Repo)
    (req : CreateOrderRequest)
    (hu : req.userID ≠ "")
    (hne : req.items ≠ [])
    (huser : ∃ u, env.getUser req.userID = Except.ok u)
    (hitems : ∀ it ∈ req.items, itemOK env it = true) :
    (CreateOrder env uuid now repo req).status = 201 ∧
    ∃ o, (CreateOrder env uuid now repo req).body = some o ∧
      Repo.getByID (CreateOrder env uuid now repo req).repo o.id = some o ∧
      o.status = OrderStatusPending ∧
      o.totalPrice = (req.items.map (fun it => unitPrice env it * (it.quantity : ℚ))).sum := by
  obtain ⟨u, hu2⟩ := huser
  have hbu : (req.userID == "") = false := by simp [hu]
  have hbe : req.items.isEmpty = false := by
    cases hreq : req.items with
    | nil => exact absurd hreq hne
    | cons a l => simp
  have hvoi := validateOrderItems_ok_of_all env req.items hitems
  have hcu : CheckUserExists env req.userID = Except.ok () := by
    simp [CheckUserExists, hu2]
  refine ⟨?_, NewOrder uuid now req.userID (req.items.map (snapshotItem env)), ?_, ?_, rfl, ?_⟩
  · simp [CreateOrder, hbu, hbe, hcu, hvoi]
  · simp [CreateOrder, hbu, hbe, hcu, hvoi]
  · simp only [CreateOrder, hbu, hbe, hcu, hvoi]
    simp only [Bool.false_eq_true, Bool.or_self, if_false]
    exact getByID_create repo (NewOrder uuid now req.userID (req.items.map (snapshotItem env)))
  · show (NewOrder uuid now req.userID (req.items.map (snapshotItem env))).totalPrice = _
    rw [NewOrder]
    simp only []
    rw [foldl_add_subtotal, zero_add, List.map_map]
    have hfun : (OrderItem.subtotal ∘ snapshotItem env) =
        fun it => unitPrice env it * (it.quantity : ℚ) :=
      funext fun it => snapshotItem_subtotal env it
    rw [hfun]

/-- Claim C1 witness (concrete instance). -/
theorem CreateOrder_happy_path_witness :
    (CreateOrder demoEnv "o1" 0 ([] : Repo) ⟨"u1", [⟨"p1", 2⟩]⟩).status = 201 ∧
    ∃ o, (CreateOrder demoEnv "o1" 0 ([] : Repo) ⟨"u1", [⟨"p1", 2⟩]⟩).body = some o ∧
      Repo.getByID (CreateOrder demoEnv "o1" 0 ([] : Repo) ⟨"u1", [⟨"p1", 2⟩]⟩).repo o.id = some o ∧
      o.status = OrderStatusPending ∧
      o.totalPrice = (([⟨"p1", 2⟩] : List CreateOrderItem).map
        (fun it => unitPrice demoEnv it * (it.quantity : ℚ))).sum :=
  CreateOrder_happy_path demoEnv "o1" 0 [] ⟨"u1", [⟨"p1", 2⟩]⟩ (by decide) (by decide)
    ⟨⟨"u1", "Alice", "alice@example.com"⟩, rfl⟩ (by decide)

/-- Claim C2: `ValidateOrderItems` is all-or-nothing over the requested
items in request order: when every item resolves with sufficient stock it
returns exactly one snapshot per requested item, in request order, built
from the product's current name and price; and at the first item that
fails (lookup error, or stock below the requested quantity, all earlier
items passing) it returns the error naming the offending product and no
items. -/
theorem ValidateOrderItems_spec (env : ClientEnv) (items : List CreateOrderItem) :
    ((∀ it ∈ items, itemOK env it = true) →
      ValidateOrderItems env items = Except.ok (items.map (snapshotItem env))) ∧
    (∀ i : ℕ, ∀ hi : i < items.length,
      (∀ j : ℕ, ∀ hj : j < i, itemOK env (items.get ⟨j, hj.trans hi⟩) = true) →
      itemOK env (items.get ⟨i, hi⟩) = false →
      ValidateOrderItems env items = Except.error (failMsg env (items.get ⟨i, hi⟩))) :=
  ⟨validateOrderItems_ok_of_all env items,
   fun i hi => validateOrderItems_error_first env items i hi⟩

/-- Claim C2 witness: one successful run producing the snapshots in order,
and one failing run whose error names the offending product. -/
theorem ValidateOrderItems_spec_witness :
    ValidateOrderItems demoEnv [⟨"p1", 2⟩] = Except.ok [NewOrderItem "p1" "Widget" 10 2] ∧
    ValidateOrderItems demoEnv [⟨"p1", 9⟩] =
      Except.error "insufficient stock for product Widget: available 5, requested 9" := by
  constructor
  · have h := (ValidateOrderItems_spec demoEnv [⟨"p1", 2⟩]).1 (by decide)
    rw [h]
    rfl
  · have h := (ValidateOrderItems_spec demoEnv [⟨"p1", 9⟩]).2 0 (by decide)
      (fun j hj => absurd hj (Nat.not_lt_zero j)) (by decide)
    rw [h]
    rfl

/-- Claim C3 counterexample: the status cancelled is not terminal. On a
stored order whose status is cancelled, a PATCH of status shipped returns
HTTP 200 (the handler guards only the cancellation transition), not the
400 the claim requires. -/
theorem cancelled_then_shipped_returns_200 :
    (UpdateOrderStatus 1 [cancelledDemoOrder] "o1" OrderStatusShipped).status = 200 ∧
    ¬ (UpdateOrderStatus 1 [cancelledDemoOrder] "o1" OrderStatusShipped).status = 400 := by
  decide

/-- Claim C3 as amended: the status cancelled is not terminal. On a
cancelled order only a further cancellation request fails (HTTP 400,
repository unchanged); a PATCH of status shipped on a cancelled order is
accepted: it returns HTTP 200 and overwrites the stored (and returned)
order's status to shipped. -/
theorem cancelled_blocks_only_cancellation (now : ℕ) (repo : Repo) (oid : String) (o : Order)
    (hid : oid ≠ "")
    (hfind : Repo.getByID repo oid = some o)
    (hst : o.status = OrderStatusCancelled) :
    ((UpdateOrderStatus now repo oid OrderStatusCancelled).status = 400 ∧
      (UpdateOrderStatus now repo oid OrderStatusCancelled).repo = repo) ∧
    ((UpdateOrderStatus now repo oid OrderStatusShipped).status = 200 ∧
      (UpdateOrderStatus now repo oid OrderStatusShipped).body =
        some (Order.UpdateStatus o OrderStatusShipped now) ∧
      Repo.getByID (UpdateOrderStatus now repo oid OrderStatusShipped).repo oid =
        some (Order.UpdateStatus o OrderStatusShipped now) ∧
      (Order.UpdateStatus o OrderStatusShipped now).status = OrderStatusShipped) := by
  have hbid : (oid == "") = false := by simp [hid]
  have hido := (getByID_eq_some repo oid o hfind).2
  have hcc : o.CanBeCancelled = false := by
    simp [Order.CanBeCancelled, hst, OrderStatusCancelled, OrderStatusPending,
      OrderStatusConfirmed]
  have hblocked := updateOrderStatus_cancel_blocked now repo oid o hbid hfind hcc
  have hsucc := updateOrderStatus_success now repo oid OrderStatusShipped o hbid
    (by decide) hfind
    (by simp [OrderStatusShipped, OrderStatusCancelled])
  refine ⟨⟨?_, ?_⟩, ?_, ?_, ?_, rfl⟩
  · rw [hblocked]
  · rw [hblocked]
  · rw [hsucc]
  · rw [hsucc]
  · rw [hsucc]
    have hg := getByID_create repo (Order.UpdateStatus o OrderStatusShipped now)
    simpa [Order.UpdateStatus, hido] using hg

/-- Claim C3 (amended) witness: concrete cancelled order, showing the
blocked re-cancel and the accepted shipped overwrite. -/
theorem cancelled_blocks_only_cancellation_witness :
    ((UpdateOrderStatus 1 [cancelledDemoOrder] "o1" OrderStatusCancelled).status = 400 ∧
      (UpdateOrderStatus 1 [cancelledDemoOrder] "o1" OrderStatusCancelled).repo =
        [cancelledDemoOrder]) ∧
    ((UpdateOrderStatus 1 [cancelledDemoOrder] "o1" OrderStatusShipped).status = 200 ∧
      (UpdateOrderStatus 1 [cancelledDemoOrder] "o1" OrderStatusShipped).body =
        some (Order.UpdateStatus cancelledDemoOrder OrderStatusShipped 1) ∧
      Repo.getByID
        (UpdateOrderStatus 1 [cancelledDemoOrder] "o1" OrderStatusShipped).repo "o1" =
        some (Order.UpdateStatus cancelledDemoOrder OrderStatusShipped 1) ∧
      (Order.UpdateStatus cancelledDemoOrder OrderStatusShipped 1).status =
        OrderStatusShipped) :=
  cancelled_blocks_only_cancellation 1 [cancelledDemoOrder] "o1" cancelledDemoOrder
    (by decide) (by decide) rfl

/-- Claim C4: a cancellation request succeeds only when the order's current
status is pending or confirmed; cancelling a shipped or delivered order
fails with HTTP 400 and leaves the repository, hence the stored order's
status, unchanged. -/
theorem UpdateOrderStatus_cancel_guard (now : ℕ) (repo : Repo) (oid : String) (o : Order)
    (hfind : Repo.getByID repo oid = some o) :
    ((UpdateOrderStatus now repo oid OrderStatusCancelled).status = 200 →
      o.status = OrderStatusPending ∨ o.status = OrderStatusConfirmed) ∧
    ((o.status = OrderStatusShipped ∨ o.status = OrderStatusDelivered) →
      (UpdateOrderStatus now repo oid OrderStatusCancelled).status = 400 ∧
      (UpdateOrderStatus now repo oid OrderStatusCancelled).repo = repo) := by
  constructor
  · intro h200
    cases hbid : (oid == "") with
    | true => simp [UpdateOrderStatus, hbid] at h200
    | false =>
      cases hcc : o.CanBeCancelled with
      | true =>
        have hor := hcc
        simp only [Order.CanBeCancelled, Bool.or_eq_true, beq_iff_eq] at hor
        exact hor
      | false =>
        rw [updateOrderStatus_cancel_blocked now repo oid o hbid hfind hcc] at h200
        simp at h200
  · intro hst
    have hcc : o.CanBeCancelled = false := by
      cases hst with
      | inl h => simp [Order.CanBeCancelled, h, OrderStatusShipped, OrderStatusPending,
          OrderStatusConfirmed]
      | inr h => simp [Order.CanBeCancelled, h, OrderStatusDelivered, OrderStatusPending,
          OrderStatusConfirmed]
    cases hbid : (oid == "") with
    | true => constructor <;> simp [UpdateOrderStatus, hbid]
    | false =>
      rw [updateOrderStatus_cancel_blocked now repo oid o hbid hfind hcc]
      exact ⟨rfl, rfl⟩

/-- Claim C4 witness: cancelling a concrete shipped order. -/
theorem UpdateOrderStatus_cancel_guard_witness :
    ((UpdateOrderStatus 1 [shippedDemoOrder] "o1" OrderStatusCancelled).status = 200 →
      shippedDemoOrder.status = OrderStatusPending ∨
        shippedDemoOrder.status = OrderStatusConfirmed) ∧
    ((shippedDemoOrder.status = OrderStatusShipped ∨
        shippedDemoOrder.status = OrderStatusDelivered) →
      (UpdateOrderStatus 1 [shippedDemoOrder] "o1" OrderStatusCancelled).status = 400 ∧
      (UpdateOrderStatus 1 [shippedDemoOrder] "o1" OrderStatusCancelled).repo =
        [shippedDemoOrder]) :=
  UpdateOrderStatus_cancel_guard 1 [shippedDemoOrder] "o1" shippedDemoOrder (by decide)

/-- Claim C5: when the user check fails (the user lookup returns an error,
whether the user is absent or the lookup itself failed), `CreateOrder`
returns HTTP 400 and persists nothing: the repository is unchanged and so
is the length of `list()`. -/
theorem CreateOrder_invalid_user (env : ClientEnv) (uuid : String) (now : ℕ) (repo : Repo)
    (req : CreateOrderRequest)
    (he : ∃ e, env.getUser req.userID = Except.error e) :
    (CreateOrder env uuid now repo req).status = 400 ∧
    (CreateOrder env uuid now repo req).repo = repo ∧
    (Repo.list (CreateOrder env uuid now repo req).repo).length = (Repo.list repo).length := by
  obtain ⟨e, he2⟩ := he
  have hcu : CheckUserExists env req.userID = Except.error e := by
    simp [CheckUserExists, he2]
  cases hshape : (req.userID == "" || req.items.isEmpty) with
  | true =>
    refine ⟨?_, ?_, ?_⟩ <;> simp [CreateOrder, hshape]
  | false =>
    refine ⟨?_, ?_, ?_⟩ <;> simp [CreateOrder, hshape, hcu]

/-- Claim C5 witness: concrete request with an unknown user id. -/
theorem CreateOrder_invalid_user_witness :
    (CreateOrder demoEnv "o1" 0 ([] : Repo) ⟨"u9", [⟨"p1", 1⟩]⟩).status = 400 ∧
    (CreateOrder demoEnv "o1" 0 ([] : Repo) ⟨"u9", [⟨"p1", 1⟩]⟩).repo = ([] : Repo) ∧
    (Repo.list (CreateOrder demoEnv "o1" 0 ([] : Repo) ⟨"u9", [⟨"p1", 1⟩]⟩).repo).length =
      (Repo.list ([] : Repo)).length :=
  CreateOrder_invalid_user demoEnv "o1" 0 [] ⟨"u9", [⟨"p1", 1⟩]⟩
    ⟨"user service returned status 404", rfl⟩

/-- Claim C6 exhibit: the handler runs no validator over the request's
`validate:"required,min=1"` tags, and the stock check `product.Stock <
item.Quantity` accepts any quantity not exceeding the stock, including 0.
A create-order request for quantity 0 is accepted with HTTP 201 and the
persisted order carries an item whose quantity is 0, not a positive
integer as the claim (and the struct tags) require. -/
theorem createOrder_accepts_nonpositive_quantity :
    (CreateOrder demoEnv "o1" 0 ([] : Repo) ⟨"u1", [⟨"p1", 0⟩]⟩).status = 201 ∧
    ((CreateOrder demoEnv "o1" 0 ([] : Repo) ⟨"u1", [⟨"p1", 0⟩]⟩).body.map
      (fun o => o.items.map OrderItem.quantity)) = some [0] := by
  constructor
  · decide
  · decide

/-! Pointer-level model of the repository reads, for the defensive-copy
claim. In the Go code `GetByID` (and likewise `GetByUserID` and `List`)
returns `orderCopy := *order`: a copy of the `Order` struct. The `Items`
field of that copy is a slice header pointing at the same backing array as
the stored order's. The model makes the backing arrays explicit: a heap
state holds the item arrays, and an order references its array by index
(`itemsRef`); the struct copy the Go read returns carries the same
`itemsRef` as the stored entry. -/

/-- An order as stored in the Go repository, with its `Items` slice
represented by the index of its backing array in the heap. -/
structure OrderRef where
  id : String
  userID : String
  itemsRef : ℕ
  status : String
deriving DecidableEq, Repr

/-- The heap: the item backing arrays, and the repository's internal map. -/
structure HeapRepoState where
  arrays : List (List OrderItem)
  stored : List OrderRef
deriving DecidableEq, Repr

/-- Dereference an order's items through the heap. -/
def HeapRepoState.derefItems (s : HeapRepoState) (o : OrderRef) : List OrderItem :=
  s.arrays.getD o.itemsRef []

/-- Go: `GetByID` under the pointer model - the returned value is the
struct copy `orderCopy := *order`, which shares `itemsRef` with the stored
entry (the slice header is copied, the backing array is not). -/
def heapGetByID (s : HeapRepoState) (id : String) : Option OrderRef :=
  s.stored.find? (fun o => o.id == id)

/-- A caller mutating element `j` of a returned order's `Items` in place
writes through the slice into the backing array on the heap. -/
def writeItem (s : HeapRepoState) (ref j : ℕ) (it : OrderItem) : HeapRepoState :=
  { s with arrays := s.arrays.set ref ((s.arrays.getD ref []).set j it) }

/-- The stored entry of the demo heap state. -/
def demoStoredRef : OrderRef := ⟨"o1", "u1", 0, OrderStatusPending⟩

/-- A heap state with one stored order whose items array is `[demoItem]`. -/
def demoHeapState : HeapRepoState := ⟨[[demoItem]], [demoStoredRef]⟩

/-- The item after the caller's in-place mutation of the quantity. -/
def mutatedDemoItem : OrderItem := { demoItem with quantity := 99 }

/-- Claim C7 exhibit: repository reads are not defensive copies of the
`Items` elements. `GetByID` returns a struct copy sharing the items backing
array; writing an element through the returned copy changes what the
stored entity's items dereference to, while the repository map itself is
untouched - the stored entity observably changed. -/
theorem getByID_shares_items_backing_array :
    heapGetByID demoHeapState "o1" = some demoStoredRef ∧
    HeapRepoState.derefItems demoHeapState demoStoredRef = [demoItem] ∧
    (writeItem demoHeapState demoStoredRef.itemsRef 0 mutatedDemoItem).stored =
      demoHeapState.stored ∧
    HeapRepoState.derefItems
      (writeItem demoHeapState demoStoredRef.itemsRef 0 mutatedDemoItem) demoStoredRef =
      [mutatedDemoItem] ∧
    mutatedDemoItem ≠ demoItem := by
  refine ⟨rfl, rfl, rfl, rfl, ?_⟩
  decide

/-- Claim C8: a status-update request whose status is outside the
five-member enumeration fails with HTTP 400 and performs no repository
mutation: the repository after the call is the one before it. -/
theorem UpdateOrderStatus_invalid_status (now : ℕ) (repo : Repo) (oid st : String)
    (h : validStatuses.contains st = false) :
    (UpdateOrderStatus now repo oid st).status = 400 ∧
    (UpdateOrderStatus now repo oid st).repo = repo := by
  cases hbid : (oid == "") with
  | true => exact ⟨by simp [UpdateOrderStatus, hbid], by simp [UpdateOrderStatus, hbid]⟩
  | false =>
    have hnm : ¬ st ∈ validStatuses := by simpa using h
    constructor <;> simp [UpdateOrderStatus, hbid, hnm]

/-- Claim C8 witness: the status string "wrong". -/
theorem UpdateOrderStatus_invalid_status_witness :
    (UpdateOrderStatus 1 ([pendingDemoOrder] : Repo) "o1" "wrong").status = 400 ∧
    (UpdateOrderStatus 1 ([pendingDemoOrder] : Repo) "o1" "wrong").repo =
      ([pendingDemoOrder] : Repo) :=
  UpdateOrderStatus_invalid_status 1 [pendingDemoOrder] "o1" "wrong" (by decide)

lemma updateOrderStatus_200_inv (now : ℕ) (repo : Repo) (oid st : String)
    (h : (UpdateOrderStatus now repo oid st).status = 200) :
    (oid == "") = false ∧ validStatuses.contains st = true ∧
      ∃ o, Repo.getByID repo oid = some o ∧
        (st == OrderStatusCancelled && !o.CanBeCancelled) = false := by
  cases hbid : (oid == "") with
  | true => simp [UpdateOrderStatus, hbid] at h
  | false =>
    cases hstc : validStatuses.contains st with
    | false =>
      have hnm : ¬ st ∈ validStatuses := by simpa using hstc
      simp [UpdateOrderStatus, hbid, hnm] at h
    | true =>
      have hstm : st ∈ validStatuses := by simpa using hstc
      cases hfind : Repo.getByID repo oid with
      | none => simp [UpdateOrderStatus, hbid, hstm, hfind] at h
      | some o =>
        refine ⟨rfl, rfl, o, rfl, ?_⟩
        cases hguard : (st == OrderStatusCancelled && !o.CanBeCancelled) with
        | false => rfl
        | true =>
          obtain ⟨h1, h2⟩ := by simpa [Bool.and_eq_true] using hguard
          rw [h1] at h
          rw [updateOrderStatus_cancel_blocked now repo oid o hbid hfind
            (by simpa using h2)] at h
          simp at h

/-- Claim C9: a successful status update changes only `status` and
`updatedAt`: the stored (and returned) order is the fetched one with the
status replaced and `updatedAt` refreshed to the call time; `id`, `userId`,
`items`, `totalPrice` and `createdAt` are unchanged. -/
theorem UpdateOrderStatus_success_frame (now : ℕ) (repo : Repo) (oid st : String)
    (h : (UpdateOrderStatus now repo oid st).status = 200) :
    ∃ o, Repo.getByID repo oid = some o ∧
      (UpdateOrderStatus now repo oid st).body = some (Order.UpdateStatus o st now) ∧
      Repo.getByID (UpdateOrderStatus now repo oid st).repo oid =
        some (Order.UpdateStatus o st now) ∧
      (Order.UpdateStatus o st now).id = o.id ∧
      (Order.UpdateStatus o st now).userID = o.userID ∧
      (Order.UpdateStatus o st now).items = o.items ∧
      (Order.UpdateStatus o st now).totalPrice = o.totalPrice ∧
      (Order.UpdateStatus o st now).createdAt = o.createdAt ∧
      (Order.UpdateStatus o st now).status = st ∧
      (Order.UpdateStatus o st now).updatedAt = now := by
  obtain ⟨hbid, hstc, o, hfind, hguard⟩ := updateOrderStatus_200_inv now repo oid st h
  have hido := (getByID_eq_some repo oid o hfind).2
  have hres := updateOrderStatus_success now repo oid st o hbid hstc hfind hguard
  refine ⟨o, hfind, ?_, ?_, rfl, rfl, rfl, rfl, rfl, rfl, rfl⟩
  · rw [hres]
  · rw [hres]
    have hg := getByID_create repo (Order.UpdateStatus o st now)
    simpa [Order.UpdateStatus, hido] using hg

/-- Claim C9 witness: confirming a concrete pending order. -/
theorem UpdateOrderStatus_success_frame_witness :
    ∃ o, Repo.getByID ([pendingDemoOrder] : Repo) "o1" = some o ∧
      (UpdateOrderStatus 1 [pendingDemoOrder] "o1" OrderStatusConfirmed).body =
        some (Order.UpdateStatus o OrderStatusConfirmed 1) ∧
      Repo.getByID (UpdateOrderStatus 1 [pendingDemoOrder] "o1" OrderStatusConfirmed).repo "o1" =
        some (Order.UpdateStatus o OrderStatusConfirmed 1) ∧
      (Order.UpdateStatus o OrderStatusConfirmed 1).id = o.id ∧
      (Order.UpdateStatus o OrderStatusConfirmed 1).userID = o.userID ∧
      (Order.UpdateStatus o OrderStatusConfirmed 1).items = o.items ∧
      (Order.UpdateStatus o OrderStatusConfirmed 1).totalPrice = o.totalPrice ∧
      (Order.UpdateStatus o OrderStatusConfirmed 1).createdAt = o.createdAt ∧
      (Order.UpdateStatus o OrderStatusConfirmed 1).status = OrderStatusConfirmed ∧
      (Order.UpdateStatus o OrderStatusConfirmed 1).updatedAt = 1 :=
  UpdateOrderStatus_success_frame 1 [pendingDemoOrder] "o1" OrderStatusConfirmed (by decide)

/-- Claim C10: the status-validity check runs before the repository lookup:
with a status outside the enumeration and an order id absent from the
repository, the response is 400 "Invalid order status", not 404. -/
theorem UpdateOrderStatus_status_check_precedes_lookup (now : ℕ) (repo : Repo)
    (oid st : String)
    (hid : oid ≠ "")
    (hinv : validStatuses.contains st = false)
    (_hmiss : Repo.getByID repo oid = none) :
    (UpdateOrderStatus now repo oid st).status = 400 ∧
    (UpdateOrderStatus now repo oid st).error = some "Invalid order status" := by
  have hbid : (oid == "") = false := by simp [hid]
  have hnm : ¬ st ∈ validStatuses := by simpa using hinv
  constructor <;> simp [UpdateOrderStatus, hbid, hnm]

/-- Claim C10 witness: unknown id together with the status "wrong". -/
theorem UpdateOrderStatus_status_check_precedes_lookup_witness :
    (UpdateOrderStatus 1 ([] : Repo) "o9" "wrong").status = 400 ∧
    (UpdateOrderStatus 1 ([] : Repo) "o9" "wrong").error = some "Invalid order status" :=
  UpdateOrderStatus_status_check_precedes_lookup 1 [] "o9" "wrong" (by decide) (by decide) rfl

end ECom
